import Mathlib

/-!
Verification of the cxml streaming-parser semantic layer against its
natural-language specification.

The development shallowly embeds the two repository source files

  * `src/src/parser/Parser.ts`    — the op-code decoding state machine
    (`Parser.parseCodeBuffer`, `Parser.storeSlice`, `Parser.buildSlice`,
    `Parser.getSlice`, `Parser.resolve`, `Parser._transform`, `Parser._flush`)
  * `src/src/parser/TokenChunk.ts` — the pooled output-buffer allocator
    (`TokenChunk.allocate`, `TokenChunk.free`)

into Lean.  Strings and raw input buffers are byte lists (`List Nat`); the
collaborators that are not part of the repository snapshot (`Token.ts`,
`CodeType.ts`, `Buffer.ts`, `ParserConfig.ts`, and the C++ scanner) are
modelled from the specification where a claim needs them, each such
definition carrying a doc comment that starts with `Modelled from the spec:`.
-/

namespace Cxml

/-- Modelled from the spec: `decodeArray` (src/Buffer.ts, not under src/)
decodes a byte sequence to a string.  Character decoding itself is outside
the claims — every claim only needs that equal byte sequences decode to equal
strings — so a decoded string is represented by its byte sequence. -/
abbrev Str := List Nat

/-- JavaScript `array.slice(start, end)` for non-negative bounds: the elements
at indices `start ≤ i < end`, clamped to the array; `none` stands for an
omitted `end` argument (slice to the end of the array). -/
def arraySlice (a : List Nat) (start : Nat) (stop : Option Nat) : List Nat :=
  (a.take (stop.getD a.length)).drop start

/-- The newline normalization of `Parser.getSlice`
(`.replace(/\r\n?|\n\r/g, '\n')`, src/src/parser/Parser.ts line 453): a
global leftmost scan replacing CRLF, lone CR, or LFCR by a single LF
(byte 13 = CR, byte 10 = LF); the scan resumes after each replacement. -/
def normalizeNewlines : List Nat → List Nat
  | [] => []
  | 13 :: 10 :: rest => 10 :: normalizeNewlines rest
  | 13 :: rest => 10 :: normalizeNewlines rest
  | 10 :: 13 :: rest => 10 :: normalizeNewlines rest
  | c :: rest => c :: normalizeNewlines rest

/-- Modelled from the spec: the prefix tokens handed out by the symbol-table
collaborator (`InternalToken`, not under src/).  JavaScript compares them by
object identity; an identity is a numeric id plus the prefix name. -/
structure PfxTok where
  id : Nat
  name : Str
deriving DecidableEq, Repr, Inhabited

/-- Modelled from the spec: output tokens (`Token.ts`, not under src/).
`elemOpen`/`elemClose`/`elemEmitted`/`attrName` are the member tokens
(`OpenToken`, `CloseToken`, `EmittedToken`, `StringToken`): a local name, a
namespace identity (`none` = the `Namespace.unknown` sentinel), and a `uid`
standing for JavaScript object identity.  `text` is a decoded string
(text, attribute value or comment content) and `commentMarker` is
`SpecialToken.comment`. -/
inductive Tok where
  | elemOpen (name : Str) (ns : Option Nat) (uid : Nat)
  | elemClose (name : Str) (ns : Option Nat) (uid : Nat)
  | elemEmitted (name : Str) (ns : Option Nat) (uid : Nat)
  | attrName (name : Str) (ns : Option Nat) (uid : Nat)
  | text (s : Str)
  | commentMarker
deriving DecidableEq, Repr, Inhabited

/-- Modelled from the spec: `MemberToken.resolve(ns)` returns the same name
bound to namespace `ns` (spec §4.2 step 2: "replace it with the same name
bound to N"); non-member tokens are unaffected (they never pass the
`instanceof MemberToken` guard). -/
def memberResolve (nsid : Nat) : Tok → Tok
  | .elemOpen n _ u => .elemOpen n (some nsid) u
  | .elemClose n _ u => .elemClose n (some nsid) u
  | .elemEmitted n _ u => .elemEmitted n (some nsid) u
  | .attrName n _ u => .attrName n (some nsid) u
  | t => t

/-- `token instanceof MemberToken` (src/src/parser/Parser.ts line 474). -/
def Tok.isMember : Tok → Bool
  | .elemOpen _ _ _ => true
  | .elemClose _ _ _ => true
  | .elemEmitted _ _ _ => true
  | .attrName _ _ _ => true
  | _ => false

/-- Modelled from the spec: `OpenToken.emitted` — the terminal token emitted
when the open element's start tag completes (spec §4.1). -/
def Tok.emittedOf : Tok → Tok
  | .elemOpen n ns u => .elemEmitted n ns u
  | t => t

/-- Modelled from the spec: `OpenToken.close` — the close-tag token belonging
to an open-element token. -/
def Tok.closeOf : Tok → Tok
  | .elemOpen n ns u => .elemClose n ns u
  | t => t

/-- Modelled from the spec: a `Namespace` record (src/Namespace.ts, not under
src/): numeric identifier, URI, and the optional default prefix set on first
binding. -/
structure NsRec where
  id : Nat
  uri : Str
  defaultPrefix : Option Str
deriving DecidableEq, Repr

instance : Inhabited NsRec := ⟨⟨0, [], none⟩⟩

/-- Modelled from the spec: a predeclared element descriptor
(`config.elementSpace.list` entries): the open token (close/emitted derived
from it) and the name's byte buffer `buf` used by the PARTIAL_* op-codes. -/
structure ElemRec where
  openTok : Tok
  buf : List Nat
deriving DecidableEq, Repr, Inhabited

/-- Modelled from the spec: a predeclared attribute descriptor
(`config.attributeSpace.list` entries): the `string` token plus `buf`. -/
structure AttrRec where
  stringTok : Tok
  buf : List Nat
deriving DecidableEq, Repr, Inhabited

/-- Modelled from the spec: a predeclared URI descriptor
(`config.uriSpace.list` entries). -/
structure UriRec where
  buf : List Nat
deriving DecidableEq, Repr, Inhabited

/-- Modelled from the spec: the per-category symbol-table state reachable
through `this.config` (`ParserConfig`, not under src/): ordered descriptor
lists addressable by small integer id, the namespace registry, and the
largest namespace id handed out. -/
structure Config where
  elementList : List ElemRec
  attributeList : List AttrRec
  prefixList : List PfxTok
  uriList : List UriRec
  namespaceList : List NsRec
  maxNamespace : Nat
deriving Repr, Inhabited

/-- Modelled from the spec: the op-code kind enumeration (`CodeType.ts`,
src/tokenizer — not under src/).  The spec (§6) fixes only that kinds are a
closed enumeration packed into the 5 low bits of each code; the numeric
values below realise that contract in declaration order. -/
inductive CodeType where
  | OPEN_ELEMENT_ID | CLOSE_ELEMENT_ID | ELEMENT_EMITTED | CLOSED_ELEMENT_EMITTED
  | ATTRIBUTE_ID | PREFIX_ID | XMLNS_ID | NAMESPACE_ID
  | TEXT_START_OFFSET | VALUE_START_OFFSET | COMMENT_START_OFFSET | UNKNOWN_START_OFFSET
  | UNKNOWN_OPEN_ELEMENT_END_OFFSET | UNKNOWN_CLOSE_ELEMENT_END_OFFSET
  | UNKNOWN_ATTRIBUTE_END_OFFSET
  | VALUE_END_OFFSET | TEXT_END_OFFSET
  | UNKNOWN_PREFIX_END_OFFSET | UNKNOWN_XMLNS_END_OFFSET | UNKNOWN_URI_END_OFFSET
  | COMMENT_END_OFFSET
  | PARTIAL_LEN | PARTIAL_URI_ID | PARTIAL_PREFIX_ID | PARTIAL_ATTRIBUTE_ID
  | PARTIAL_ELEMENT_ID
deriving DecidableEq, Repr

def CodeType.toNat : CodeType → Nat
  | .OPEN_ELEMENT_ID => 0 | .CLOSE_ELEMENT_ID => 1
  | .ELEMENT_EMITTED => 2 | .CLOSED_ELEMENT_EMITTED => 3
  | .ATTRIBUTE_ID => 4 | .PREFIX_ID => 5 | .XMLNS_ID => 6 | .NAMESPACE_ID => 7
  | .TEXT_START_OFFSET => 8 | .VALUE_START_OFFSET => 9
  | .COMMENT_START_OFFSET => 10 | .UNKNOWN_START_OFFSET => 11
  | .UNKNOWN_OPEN_ELEMENT_END_OFFSET => 12 | .UNKNOWN_CLOSE_ELEMENT_END_OFFSET => 13
  | .UNKNOWN_ATTRIBUTE_END_OFFSET => 14
  | .VALUE_END_OFFSET => 15 | .TEXT_END_OFFSET => 16
  | .UNKNOWN_PREFIX_END_OFFSET => 17 | .UNKNOWN_XMLNS_END_OFFSET => 18
  | .UNKNOWN_URI_END_OFFSET => 19
  | .COMMENT_END_OFFSET => 20
  | .PARTIAL_LEN => 21 | .PARTIAL_URI_ID => 22 | .PARTIAL_PREFIX_ID => 23
  | .PARTIAL_ATTRIBUTE_ID => 24 | .PARTIAL_ELEMENT_ID => 25

def CodeType.ofNat? : Nat → Option CodeType
  | 0 => some .OPEN_ELEMENT_ID | 1 => some .CLOSE_ELEMENT_ID
  | 2 => some .ELEMENT_EMITTED | 3 => some .CLOSED_ELEMENT_EMITTED
  | 4 => some .ATTRIBUTE_ID | 5 => some .PREFIX_ID | 6 => some .XMLNS_ID
  | 7 => some .NAMESPACE_ID
  | 8 => some .TEXT_START_OFFSET | 9 => some .VALUE_START_OFFSET
  | 10 => some .COMMENT_START_OFFSET | 11 => some .UNKNOWN_START_OFFSET
  | 12 => some .UNKNOWN_OPEN_ELEMENT_END_OFFSET
  | 13 => some .UNKNOWN_CLOSE_ELEMENT_END_OFFSET
  | 14 => some .UNKNOWN_ATTRIBUTE_END_OFFSET
  | 15 => some .VALUE_END_OFFSET | 16 => some .TEXT_END_OFFSET
  | 17 => some .UNKNOWN_PREFIX_END_OFFSET | 18 => some .UNKNOWN_XMLNS_END_OFFSET
  | 19 => some .UNKNOWN_URI_END_OFFSET
  | 20 => some .COMMENT_END_OFFSET
  | 21 => some .PARTIAL_LEN | 22 => some .PARTIAL_URI_ID
  | 23 => some .PARTIAL_PREFIX_ID | 24 => some .PARTIAL_ATTRIBUTE_ID
  | 25 => some .PARTIAL_ELEMENT_ID
  | _ => none

/-- `(payload << TOKEN.SHIFT) | kind` with `TOKEN.SHIFT = 5` (spec §6, and
src/src/parser/Parser.ts lines 30-33): the packed op-code. -/
def mkCode (k : CodeType) (payload : Nat) : Nat := k.toNat + payload * 32

/-- The namespace identity a token carries (`none` for non-member tokens and
for the `Namespace.unknown` sentinel). -/
def Tok.nsOf : Tok → Option Nat
  | .elemOpen _ ns _ => ns
  | .elemClose _ ns _ => ns
  | .elemEmitted _ ns _ => ns
  | .attrName _ ns _ => ns
  | .text _ => none
  | .commentMarker => none

/-- The parser-instance state: the fields of class `Parser`
(src/src/parser/Parser.ts lines 482-525) that the embedded methods touch,
plus the reference to the shared `config` and a `heapNext` counter standing
for the JavaScript heap's supply of fresh object identities.  Sparse
JavaScript arrays (`prefixBuffer`, `namespaceBuffer`, `unknownOffsetList`)
are total functions from index; `partList = none` is JavaScript `null`;
`partStart`/`elementStart` are `-1` when cleared, as in the source.
`tokenBuffer` is `this.tokenChunk.buffer` (`tokenChunk.length` is its list
length: every source write `tokenBuffer[++tokenNum] = x` appends at index
`length`, and `this.tokenChunk.length = tokenNum + 1` restores the
invariant at the end of each `parseCodeBuffer`). -/
@[ext]
structure PState where
  config : Config
  chunk : List Nat
  partList : Option (List (List Nat))
  partListTotalByteLen : Nat
  partStart : Int
  partialLen : Nat
  latestElement : Tok
  latestPrefix : Option PfxTok
  latestNamespace : Option Nat
  tokenBuffer : List Tok
  elementStart : Int
  prefixBuffer : Nat → Option PfxTok
  namespaceBuffer : Nat → Option Nat
  unknownElementTbl : List (Str × Tok)
  unknownAttributeTbl : List (Str × Tok)
  unknownOffsetList : Nat → Nat
  unknownCount : Nat
  namespaceList : Nat → Option Nat
  namespacesChanged : Bool
  heapNext : Nat
  hasError : Bool

/-- `this.tokenBuffer[i]` for a possibly negative index: JavaScript yields
`undefined` (here `none`) outside the array. -/
def listGetI (l : List Tok) (i : Int) : Option Tok :=
  if 0 ≤ i then l.get? i.toNat else none

/-- `this.tokenBuffer[i] = t` for a possibly negative index; all writes in
the embedded paths hit live indices, so out-of-range writes are dropped. -/
def listSetI (l : List Tok) (i : Int) (t : Tok) : List Tok :=
  if 0 ≤ i then l.set i.toNat t else l

/-- `Parser.storeSlice` (src/src/parser/Parser.ts lines 428-434): save a
slice of the current input buffer for later reassembly.  `stop = some 0`
(`end !== 0` false) stores nothing — but still materialises `partList`;
an omitted `end` saves to the end of the buffer and counts
`this.chunk.length - start` bytes. -/
def storeSlice (s : PState) (start : Nat) (stop : Option Nat := none) : PState :=
  let pl := s.partList.getD []
  if stop = some 0 then { s with partList := some pl }
  else
    { s with
        partList := some (pl ++ [arraySlice s.chunk start stop]),
        partListTotalByteLen :=
          s.partListTotalByteLen + (stop.getD s.chunk.length - start) }

/-- `Parser.buildSlice` (src/src/parser/Parser.ts lines 437-445): append the
final slice, concatenate every saved part in order, decode, and clear the
part list.  `concatArray` (src/Buffer.ts, not under src/) is modelled from
the spec: "concatenate all saved parts with the current slice, in order". -/
def buildSlice (s : PState) (start : Nat) (stop : Option Nat) : List Nat × PState :=
  let s := storeSlice s start stop
  ((s.partList.getD []).flatten,
   { s with partList := none, partListTotalByteLen := 0 })

/-- `Parser.getSlice` (src/src/parser/Parser.ts lines 449-454): the decoded
string of the current token — reassembled from saved parts when any exist —
with newline normalization applied. -/
def getSlice (s : PState) (start : Nat) (stop : Option Nat) : List Nat × PState :=
  match s.partList with
  | some _ =>
    let (bytes, s) := buildSlice s start stop
    (normalizeNewlines bytes, s)
  | none => (normalizeNewlines (arraySlice s.chunk start stop), s)

/-- The body of `Parser.resolve`'s scan (src/src/parser/Parser.ts lines
471-479) at loop index `pos`: if the slot's recorded provisional prefix
equals the bound prefix and the token there is a member token, rebind it to
the namespace and clear the slot's provisional namespace. -/
def resolveSlot (pfx : Option PfxTok) (nsid : Nat) (es : Int) (pos : Nat)
    (s : PState) : PState :=
  if s.prefixBuffer pos = pfx then
    match listGetI s.tokenBuffer ((pos : Int) + es) with
    | some t =>
      if t.isMember then
        { s with
            tokenBuffer := listSetI s.tokenBuffer ((pos : Int) + es) (memberResolve nsid t),
            namespaceBuffer := fun i => if i = pos then none else s.namespaceBuffer i }
      else s
    | none => s
  else s

/-- `for(let pos = 0; pos <= len; ++pos) …` of `Parser.resolve`:
`resolveLoop pfx nsid es n` runs the body at `pos = 0, …, n-1` in ascending
order. -/
def resolveLoop (pfx : Option PfxTok) (nsid : Nat) (es : Int) : Nat → PState → PState
  | 0, s => s
  | n + 1, s => resolveSlot pfx nsid es n (resolveLoop pfx nsid es n s)

/-- `Parser.resolve` (src/src/parser/Parser.ts lines 458-480): record the
namespace's default prefix on first binding (`if(!ns.base.defaultPrefix)`),
mark the namespace as touched, and forward-patch every slot of the current
element context whose provisional prefix equals the bound prefix.  The loop
bound is `len = tokenNum - elementStart`, with `pos` running `0 … len`
(no iterations when `len < 0`, as for the JavaScript `for` loop). -/
def Parser.resolve (s : PState) (es tn : Int) (pfx : Option PfxTok)
    (idNamespace : Nat) : PState :=
  let ns0 := s.config.namespaceList.getD idNamespace default
  -- The default-prefix update leaves `ns.base.id` untouched, so `ns0.id`
  -- below is the id the source reads back from the updated record.
  let ns := if ns0.defaultPrefix = none
            then { ns0 with defaultPrefix := pfx.map PfxTok.name } else ns0
  let s := { s with
      config := { s.config with
        namespaceList := s.config.namespaceList.set idNamespace ns },
      namespaceList := fun i => if i = ns0.id then some ns0.id else s.namespaceList i,
      namespacesChanged := true }
  resolveLoop pfx ns0.id es (tn - es + 1).toNat s

/-- The per-slot body of the `ELEMENT_EMITTED` fix-up loop
(src/src/parser/Parser.ts lines 204-216): a queued unknown slot whose
provisional namespace was not cleared by an earlier xmlns resolution is
re-resolved against the config's current record of that namespace. -/
def patchSlot (es : Int) (s : PState) (pos : Nat) : PState :=
  let offset := s.unknownOffsetList pos
  match s.namespaceBuffer offset with
  | none => s
  | some nsid =>
    let ns := s.config.namespaceList.getD nsid default
    match listGetI s.tokenBuffer ((offset : Int) + es) with
    | some t =>
      { s with tokenBuffer :=
          listSetI s.tokenBuffer ((offset : Int) + es) (memberResolve ns.id t) }
    | none => s

/-- `for(let pos = 0; pos < unknownCount; ++pos) …` of the
`ELEMENT_EMITTED` branch. -/
def patchUnknown (es : Int) (s : PState) : PState :=
  (List.range s.unknownCount).foldl (patchSlot es) s

/-- The `unknownElementTbl` lookup-or-create of the
`UNKNOWN_OPEN_ELEMENT_END_OFFSET` branch (src/src/parser/Parser.ts lines
267-272): a hit returns the cached token object; a miss creates
`new OpenToken(name, Namespace.unknown)` — a fresh heap identity — and
caches it for the instance's lifetime. -/
def internUnknownElement (s : PState) (name : Str) : Tok × PState :=
  match s.unknownElementTbl.lookup name with
  | some t => (t, s)
  | none =>
    let t := Tok.elemOpen name none s.heapNext
    (t, { s with
        unknownElementTbl := (name, t) :: s.unknownElementTbl,
        heapNext := s.heapNext + 1 })

/-- The `unknownAttributeTbl` lookup-or-create of the
`UNKNOWN_ATTRIBUTE_END_OFFSET` branch (src/src/parser/Parser.ts lines
298-303): as for elements, with `new StringToken(name, Namespace.unknown)`. -/
def internUnknownAttribute (s : PState) (name : Str) : Tok × PState :=
  match s.unknownAttributeTbl.lookup name with
  | some t => (t, s)
  | none =>
    let t := Tok.attrName name none s.heapNext
    (t, { s with
        unknownAttributeTbl := (name, t) :: s.unknownAttributeTbl,
        heapNext := s.heapNext + 1 })

/-- The `ELEMENT_EMITTED` / `CLOSED_ELEMENT_EMITTED` branch
(src/src/parser/Parser.ts lines 197-230): patch queued unknown slots,
refresh `latestElement` from the element's own slot, emit the terminal
token (`emitted` or `close`), and close the element context. -/
def emitElement (s : PState) (emitted : Bool) : PState :=
  let s :=
    if s.unknownCount ≠ 0 then
      let s := patchUnknown s.elementStart s
      { s with
          latestElement := (listGetI s.tokenBuffer s.elementStart).getD default,
          unknownCount := 0 }
    else s
  { s with
      tokenBuffer := s.tokenBuffer ++
        [if emitted then s.latestElement.emittedOf else s.latestElement.closeOf],
      elementStart := -1 }

/-- Modelled from the spec: `ParserNamespace.addElement(name)` (not under
src/) returns the namespace's member token for `name`; its heap identity is
not tracked (no claim depends on it). -/
def nsAddElement (nsid : Nat) (name : Str) : Tok := .elemOpen name (some nsid) 0

/-- The shared tail of the `PARTIAL_*_ID` branches (src/src/parser/Parser.ts
lines 379-400): store the first `partialLen` bytes of the predeclared name's
buffer as the saved part.  The `partialList` fallthrough chain always enters
with `partialList == elementList` and resets it afterwards, so its net
effect is that each op-code kind picks its own descriptor list. -/
def setPartial (s : PState) (buf : List Nat) : PState :=
  { s with
      partList := some [buf.take s.partialLen],
      partListTotalByteLen := s.partialLen }

/-- One arm of the `switch(kind)` of `Parser.parseCodeBuffer`
(src/src/parser/Parser.ts lines 182-405), acting on the instance state.
Local variables of the source (`tokenNum`, `partStart`, `latestPrefix`, …)
are the corresponding state fields; `tokenBuffer[++tokenNum] = x` is an
append.  The `default:` arm leaves the state unchanged. -/
def applyCode (s : PState) (kind : CodeType) (payload : Nat) : PState :=
  match kind with
  | .OPEN_ELEMENT_ID =>
    let le := (s.config.elementList.getD payload default).openTok
    { s with latestElement := le,
             tokenBuffer := s.tokenBuffer ++ [le],
             prefixBuffer := fun i => if i = 0 then s.latestPrefix else s.prefixBuffer i,
             elementStart := (s.tokenBuffer.length : Int) }
  | .CLOSE_ELEMENT_ID =>
    { s with tokenBuffer := s.tokenBuffer ++
        [(s.config.elementList.getD payload default).openTok.closeOf] }
  | .ELEMENT_EMITTED => emitElement s true
  | .CLOSED_ELEMENT_EMITTED => emitElement s false
  | .ATTRIBUTE_ID =>
    let pos := ((s.tokenBuffer.length : Int) - s.elementStart).toNat
    { s with
        tokenBuffer := s.tokenBuffer ++
          [(s.config.attributeList.getD payload default).stringTok],
        prefixBuffer := fun i =>
          if i = pos then s.latestPrefix.orElse (fun _ => s.prefixBuffer 0)
          else s.prefixBuffer i }
  | .PREFIX_ID =>
    { s with latestNamespace := (s.config.namespaceList.get? (payload / 16384)).map NsRec.id,
             latestPrefix := s.config.prefixList.get? (payload % 16384) }
  | .XMLNS_ID =>
    { s with latestPrefix := s.config.prefixList.get? payload }
  | .NAMESPACE_ID =>
    let s := Parser.resolve s s.elementStart ((s.tokenBuffer.length : Int) - 1)
      s.latestPrefix payload
    { s with latestPrefix := none }
  | .TEXT_START_OFFSET | .VALUE_START_OFFSET
  | .COMMENT_START_OFFSET | .UNKNOWN_START_OFFSET =>
    { s with partStart := (payload : Int) }
  | .UNKNOWN_OPEN_ELEMENT_END_OFFSET =>
    let (name, s) := getSlice s s.partStart.toNat (some payload)
    let (le, s) := internUnknownElement s name
    { s with latestElement := le,
             tokenBuffer := s.tokenBuffer ++ [le],
             prefixBuffer := fun i => if i = 0 then s.latestPrefix else s.prefixBuffer i,
             namespaceBuffer := fun i => if i = 0 then s.latestNamespace else s.namespaceBuffer i,
             elementStart := (s.tokenBuffer.length : Int),
             unknownOffsetList := fun i => if i = 0 then 0 else s.unknownOffsetList i,
             unknownCount := 1,
             partStart := -1 }
  | .UNKNOWN_CLOSE_ELEMENT_END_OFFSET =>
    let (name, s) := getSlice s s.partStart.toNat (some payload)
    let tok := match s.latestNamespace with
      | some nsid => (nsAddElement nsid name).closeOf
      | none => ((s.unknownElementTbl.lookup name).getD default).closeOf
    { s with tokenBuffer := s.tokenBuffer ++ [tok], partStart := -1 }
  | .UNKNOWN_ATTRIBUTE_END_OFFSET =>
    let (name, s) := getSlice s s.partStart.toNat (some payload)
    let (tok, s) := internUnknownAttribute s name
    let pos := ((s.tokenBuffer.length : Int) - s.elementStart).toNat
    { s with tokenBuffer := s.tokenBuffer ++ [tok],
             prefixBuffer := fun i => if i = pos then s.latestPrefix else s.prefixBuffer i,
             namespaceBuffer := fun i => if i = pos then s.latestNamespace else s.namespaceBuffer i,
             unknownOffsetList := fun i => if i = s.unknownCount then pos else s.unknownOffsetList i,
             unknownCount := s.unknownCount + 1,
             partStart := -1 }
  | .VALUE_END_OFFSET | .TEXT_END_OFFSET =>
    let (str, s) := getSlice s s.partStart.toNat (some payload)
    { s with tokenBuffer := s.tokenBuffer ++ [Tok.text str], partStart := -1 }
  | .UNKNOWN_PREFIX_END_OFFSET | .UNKNOWN_XMLNS_END_OFFSET =>
    -- `config.addPrefix` (ParserConfig, not under src/) is modelled from the
    -- spec: bind a newly discovered prefix, yielding a fresh token id.
    let (name, s) := getSlice s s.partStart.toNat (some payload)
    let p : PfxTok := ⟨s.config.prefixList.length, name⟩
    { s with config := { s.config with prefixList := s.config.prefixList ++ [p] },
             latestPrefix := some p,
             partStart := -1 }
  | .UNKNOWN_URI_END_OFFSET =>
    -- `config.bindNamespace` (ParserConfig, not under src/) is modelled from
    -- the spec: register the new namespace and return its identifier, which
    -- is then forward-patched over the current start tag.
    let (uri, s) := getSlice s s.partStart.toNat (some payload)
    let name := (s.latestPrefix.map PfxTok.name).getD []
    let ns : NsRec := ⟨s.config.maxNamespace + 1, uri, some name⟩
    let idNamespace := s.config.namespaceList.length
    let s := { s with config := { s.config with
                 namespaceList := s.config.namespaceList ++ [ns],
                 maxNamespace := s.config.maxNamespace + 1 } }
    let s := Parser.resolve s s.elementStart ((s.tokenBuffer.length : Int) - 1)
      s.latestPrefix idNamespace
    { s with latestPrefix := none, partStart := -1 }
  | .COMMENT_END_OFFSET =>
    let (str, s) := getSlice s s.partStart.toNat (some payload)
    { s with tokenBuffer := s.tokenBuffer ++ [Tok.commentMarker, Tok.text str],
             partStart := -1 }
  | .PARTIAL_LEN => { s with partialLen := payload }
  | .PARTIAL_URI_ID => setPartial s (s.config.uriList.getD payload default).buf
  | .PARTIAL_PREFIX_ID => setPartial s (s.config.prefixList.getD payload default).name
  | .PARTIAL_ATTRIBUTE_ID => setPartial s (s.config.attributeList.getD payload default).buf
  | .PARTIAL_ELEMENT_ID => setPartial s (s.config.elementList.getD payload default).buf

/-- One iteration of the `while(codeNum < codeCount)` loop
(src/src/parser/Parser.ts lines 177-181): split the packed code into its
5-bit kind and shifted payload; an unrecognised kind falls to `default:`. -/
def processCode (s : PState) (code : Nat) : PState :=
  match CodeType.ofNat? (code % 32) with
  | some k => applyCode s k (code / 32)
  | none => s

/-- `Parser.parseCodeBuffer` (src/src/parser/Parser.ts lines 144-426) over
an explicit list of valid codes (slot 0 of the shared buffer holds their
count): run the switch over every code, then — when called with
`pending = false`, i.e. at the end of an input write — save the open
token's bytes from `partStart` to the end of the exhausted input buffer and
reset `partStart` to 0 for the next write (lines 408-411). -/
def parseCodeBuffer (pending : Bool) (codes : List Nat) (s : PState) : PState :=
  let s := codes.foldl processCode s
  if pending = false ∧ 0 ≤ s.partStart then
    { storeSlice s s.partStart.toNat with partStart := 0 }
  else s

/-- The C++ scanner's verdict on one input write: a filled code buffer, or a
malformed-input status with its row and column (`ErrorType`, not under
src/). -/
inductive ScanOut where
  | ok (codes : List Nat)
  | err (e row col : Nat)

/-- The chunk handed to the stream consumer: `TokenChunk.buffer` plus the
optional list of namespaces touched while building it. -/
structure ChunkOut where
  buffer : List Tok
  namespaceList : Option (Nat → Option Nat)

/-- What one `_transform` call does for its caller: return early because the
error state is latched, emit a `ParseError` (its constructor adds 1 to row
and column), or call `flush` with the filled chunk / with `null` when not
ready. -/
inductive TOut where
  | rejected
  | errored (e row col : Nat)
  | flushed (chunk : Option ChunkOut)

/-- `Parser._transform` (src/src/parser/Parser.ts lines 99-142) for one
input write already encoded to bytes, with the scanner
(`this.native.parse`) passed in as `scan`.  `chunkSize` is `Infinity` in the
source, so the single-parse branch always runs.  On scanner error,
`throwError` emits the error and latches `hasError`; otherwise the filled
chunk is flushed exactly when no element context is open, a fresh chunk
replacing it, and a `null` chunk is flushed otherwise, the in-progress one
retained. -/
def transform (scan : List Nat → ScanOut) (s : PState) (input : List Nat) :
    PState × TOut :=
  if s.hasError then (s, .rejected)
  else
    let s := { s with chunk := input }
    match scan input with
    | .err e row col => ({ s with hasError := true }, .errored e (row + 1) (col + 1))
    | .ok codes =>
      let s := parseCodeBuffer false codes s
      if s.elementStart < 0 then
        ({ s with tokenBuffer := [] },
         .flushed (some
           { buffer := s.tokenBuffer,
             namespaceList := if s.namespacesChanged then some s.namespaceList else none }))
      else (s, .flushed none)

/-- A pooled output chunk (src/src/parser/TokenChunk.ts): `uid` stands for
the JavaScript object's heap identity; the `next` free-list pointer is
represented by the chunk's position in the pool's list. -/
structure TokenChunk where
  uid : Nat
  length : Nat
  buffer : List Tok
  namespaceList : Option (List Nat)
deriving DecidableEq, Repr

/-- The state behind `TokenChunk`'s static member `first`
(src/src/parser/TokenChunk.ts line 34).  Being `static`, there is exactly
one such free list per process, whichever parser pipeline allocates or
frees; `nextUid` stands for the heap's supply of fresh chunk objects. -/
structure PoolState where
  first : List TokenChunk
  nextUid : Nat
deriving DecidableEq, Repr

/-- `TokenChunk.allocate` (src/src/parser/TokenChunk.ts lines 6-22): pop the
free list if non-empty, else create a chunk; either way set `length` to the
given buffer's length (the argument defaults to a fresh empty array), adopt
the buffer, clear the free-list pointer and clear `namespaceList`. -/
def TokenChunk.allocate (p : PoolState) (buffer : List Tok := []) :
    TokenChunk × PoolState :=
  match p.first with
  | c :: rest =>
    ({ c with length := buffer.length, buffer := buffer, namespaceList := none },
     { p with first := rest })
  | [] =>
    ({ uid := p.nextUid, length := buffer.length, buffer := buffer,
       namespaceList := none },
     { p with nextUid := p.nextUid + 1 })

/-- `TokenChunk.free` (src/src/parser/TokenChunk.ts lines 24-27): push the
chunk onto the process-wide free list. -/
def TokenChunk.free (c : TokenChunk) (p : PoolState) : PoolState :=
  { p with first := c :: p.first }

/-- The initial state of a freshly constructed `Parser` instance: the field
initializers of src/src/parser/Parser.ts lines 482-525 (`partStart = -1`,
`namespacesChanged = true`, empty tables and buffers), with `heapNext` the
heap's next fresh identity at construction time. -/
def initState (cfg : Config) (heap : Nat := 0) : PState :=
  { config := cfg, chunk := [], partList := none, partListTotalByteLen := 0,
    partStart := -1, partialLen := 0, latestElement := default,
    latestPrefix := none, latestNamespace := none, tokenBuffer := [],
    elementStart := -1, prefixBuffer := fun _ => none,
    namespaceBuffer := fun _ => none, unknownElementTbl := [],
    unknownAttributeTbl := [], unknownOffsetList := fun _ => 0,
    unknownCount := 0, namespaceList := fun _ => none,
    namespacesChanged := true, heapNext := heap, hasError := false }

/-- An empty symbol-table configuration, used for concrete runs. -/
def cfgEmpty : Config := ⟨[], [], [], [], [], 0⟩

theorem getSlice_tokenBuffer (s : PState) (a : Nat) (b : Option Nat) :
    (getSlice s a b).2.tokenBuffer = s.tokenBuffer := by
  rcases h : s.partList with _ | pl <;>
    simp [getSlice, buildSlice, storeSlice, h] <;> split <;> rfl

theorem normalizeNewlines_no_cr : ∀ l : List Nat, 13 ∉ normalizeNewlines l := by
  intro l
  induction l using normalizeNewlines.induct <;> simp_all [normalizeNewlines] <;> omega

/-! ### C3 — pool allocate after free resets the chunk -/

/-- C3: for every chunk and every prior content of that chunk, releasing it
to the pool (`free`) and then calling `allocate()` with no arguments returns
a chunk whose length is zero and whose namespace-list marker is cleared. -/
theorem free_then_allocate_resets (p : PoolState) (c : TokenChunk) :
    (TokenChunk.allocate (TokenChunk.free c p)).1.length = 0 ∧
    (TokenChunk.allocate (TokenChunk.free c p)).1.namespaceList = none := by
  simp [TokenChunk.free, TokenChunk.allocate]

/-! ### C9 — the free list is shared process-wide, not per pipeline -/

/-- A pool state as pipeline B would see it had pipeline A released
nothing: empty free list, next fresh chunk identity 5. -/
def poolC9 : PoolState := ⟨[], 5⟩

/-- A chunk (identity 0) held by pipeline A. -/
def chunkC9 : TokenChunk := ⟨0, 3, [Tok.commentMarker], none⟩

/-- C9 counterexample: `TokenChunk.first` is a `static` member, so the free
list is one process-wide structure; `free` and `allocate` take no pipeline
parameter at all.  Concretely, when pipeline A releases `chunkC9`, the next
`allocate()` — wherever it is called, in particular in pipeline B — returns
that very chunk (identity 0), while without A's release it would have
created a fresh chunk (identity 5): releasing in one pipeline does change
which chunk an allocate call in the other returns. -/
theorem pool_sharing_counterexample :
    (TokenChunk.allocate (TokenChunk.free chunkC9 poolC9)).1 ≠
      (TokenChunk.allocate poolC9).1 := by
  decide

/-- C9 amended: the token-chunk free list is a single process-wide structure
shared by every pipeline: releasing a chunk pushes it onto the same list any
later `allocate()` pops, so the allocate immediately following any release —
from whichever pipeline — returns exactly the released chunk (with length
and namespace-list marker reset), and the pool then holds its prior
contents. -/
theorem pool_free_list_is_processwide (p : PoolState) (c : TokenChunk) :
    (TokenChunk.allocate (TokenChunk.free c p)).1 =
      { c with length := 0, buffer := [], namespaceList := none } ∧
    (TokenChunk.allocate (TokenChunk.free c p)).2 = p := by
  simp [TokenChunk.free, TokenChunk.allocate]

/-! ### C5 — newline normalization of decoded strings -/

/-- C5: every string produced by `getSlice` — the single decode point for
text, attribute values and comments — has every CRLF, lone CR, or LFCR
replaced by a single line feed: no carriage return survives in any decoded
string, and the text `"a\r\nb\rc\n\rd"` decodes to `"a\nb\nc\nd"`. -/
theorem getSlice_newline_normalization :
    (getSlice { initState cfgEmpty with chunk := [97, 13, 10, 98, 13, 99, 10, 13, 100] }
        0 none).1 = [97, 10, 98, 10, 99, 10, 100] ∧
    ∀ (s : PState) (start : Nat) (stop : Option Nat), 13 ∉ (getSlice s start stop).1 := by
  refine ⟨by decide, fun s start stop => ?_⟩
  rcases h : s.partList with _ | pl <;>
    simp [getSlice, buildSlice, h] <;> exact normalizeNewlines_no_cr _

/-! ### C10 — a comment occupies two output slots -/

/-- C10: on every comment end-offset op-code the decoder appends two
consecutive entries — the special comment marker token followed by the
decoded comment string — so a comment occupies two slots of the emitted
token sequence. -/
theorem comment_emits_two_slots (s : PState) (code : Nat)
    (h : code % 32 = CodeType.COMMENT_END_OFFSET.toNat) :
    (processCode s code).tokenBuffer =
      s.tokenBuffer ++
        [Tok.commentMarker,
         Tok.text (getSlice s s.partStart.toNat (some (code / 32))).1] := by
  rcases hg : getSlice s s.partStart.toNat (some (code / 32)) with ⟨str, s2⟩
  have htb : s2.tokenBuffer = s.tokenBuffer := by
    have := getSlice_tokenBuffer s s.partStart.toNat (some (code / 32))
    rw [hg] at this; exact this
  simp [processCode, h, CodeType.toNat, CodeType.ofNat?, applyCode, hg, htb]

/-- C10 witness: a concrete comment whose bytes are `hi`, closing at offset
2 of the current input buffer. -/
theorem comment_emits_two_slots_witness :
    mkCode CodeType.COMMENT_END_OFFSET 2 % 32 = CodeType.COMMENT_END_OFFSET.toNat ∧
    (processCode { initState cfgEmpty with chunk := [104, 105], partStart := 0 }
        (mkCode CodeType.COMMENT_END_OFFSET 2)).tokenBuffer =
      ({ initState cfgEmpty with chunk := [104, 105], partStart := 0 } : PState).tokenBuffer ++
        [Tok.commentMarker,
         Tok.text (getSlice { initState cfgEmpty with chunk := [104, 105], partStart := 0 }
           (({ initState cfgEmpty with chunk := [104, 105], partStart := 0 } : PState).partStart.toNat)
           (some (mkCode CodeType.COMMENT_END_OFFSET 2 / 32))).1] :=
  ⟨by decide, comment_emits_two_slots _ _ (by decide)⟩

/-! ### C4 — per-instance interning of undeclared names -/

/-- C4: within one parser instance, every two occurrences of the same
undeclared element name (likewise attribute name) yield the identical,
reference-equal token — the second interning returns exactly the first's
token object.  The same name decoded by a different parser instance yields
a distinct token: the two instances are alive on one heap, so the objects
they create have distinct identities (`heapNext` values differ), and each
consults only its own per-instance table. -/
theorem unknown_names_interned_per_instance (sA sB : PState) (name : Str)
    (hA : sA.unknownElementTbl.lookup name = none)
    (hB : sB.unknownElementTbl.lookup name = none)
    (hA2 : sA.unknownAttributeTbl.lookup name = none)
    (hB2 : sB.unknownAttributeTbl.lookup name = none)
    (hheap : sB.heapNext ≠ sA.heapNext) :
    (∀ s : PState,
      (internUnknownElement (internUnknownElement s name).2 name).1 =
        (internUnknownElement s name).1) ∧
    (∀ s : PState,
      (internUnknownAttribute (internUnknownAttribute s name).2 name).1 =
        (internUnknownAttribute s name).1) ∧
    (internUnknownElement sA name).1 ≠ (internUnknownElement sB name).1 ∧
    (internUnknownAttribute sA name).1 ≠ (internUnknownAttribute sB name).1 := by
  refine ⟨fun s => ?_, fun s => ?_, ?_, ?_⟩
  · rcases h : s.unknownElementTbl.lookup name with _ | t <;>
      simp [internUnknownElement, h, List.lookup]
  · rcases h : s.unknownAttributeTbl.lookup name with _ | t <;>
      simp [internUnknownAttribute, h, List.lookup]
  · simp [internUnknownElement, hA, hB]
    omega
  · simp [internUnknownAttribute, hA2, hB2]
    omega

/-- C4 witness: two freshly constructed instances (empty tables), the second
built while the first's token is alive. -/
theorem unknown_names_interned_per_instance_witness :
    ((initState cfgEmpty 0).unknownElementTbl.lookup [120] = none ∧
     (initState cfgEmpty 1).unknownElementTbl.lookup [120] = none ∧
     (initState cfgEmpty 0).unknownAttributeTbl.lookup [120] = none ∧
     (initState cfgEmpty 1).unknownAttributeTbl.lookup [120] = none ∧
     (initState cfgEmpty 1).heapNext ≠ (initState cfgEmpty 0).heapNext) ∧
    ((∀ s : PState,
      (internUnknownElement (internUnknownElement s [120]).2 [120]).1 =
        (internUnknownElement s [120]).1) ∧
    (∀ s : PState,
      (internUnknownAttribute (internUnknownAttribute s [120]).2 [120]).1 =
        (internUnknownAttribute s [120]).1) ∧
    (internUnknownElement (initState cfgEmpty 0) [120]).1 ≠
      (internUnknownElement (initState cfgEmpty 1) [120]).1 ∧
    (internUnknownAttribute (initState cfgEmpty 0) [120]).1 ≠
      (internUnknownAttribute (initState cfgEmpty 1) [120]).1) :=
  ⟨⟨by decide, by decide, by decide, by decide, by decide⟩,
   unknown_names_interned_per_instance (initState cfgEmpty 0) (initState cfgEmpty 1)
     [120] (by decide) (by decide) (by decide) (by decide) (by decide)⟩

/-! ### C6 — a scanner error latches a permanent error state -/

/-- C7: after a successful decode pass, `_transform` hands the filled token
chunk to the consumer if and only if no element context is open
(`elementStart < 0`), replacing it by a fresh empty one; if a start tag is
still open it delivers a `null` chunk ("not ready") and retains the
in-progress token buffer unchanged for the next pass. -/
theorem flush_iff_element_closed (scan : List Nat → ScanOut) (s s' : PState)
    (input codes : List Nat)
    (hok : s.hasError = false) (hscan : scan input = .ok codes)
    (hs' : s' = parseCodeBuffer false codes { s with chunk := input }) :
    (s'.elementStart < 0 →
      transform scan s input =
        ({ s' with tokenBuffer := [] },
         .flushed (some
           { buffer := s'.tokenBuffer,
             namespaceList :=
               if s'.namespacesChanged then some s'.namespaceList else none }))) ∧
    (0 ≤ s'.elementStart → transform scan s input = (s', .flushed none)) := by
  subst hs'
  obtain ⟨cfg, ch, pl, plt, ps, pln, le, lp, lns, tb, es, pb, nb, uet, uat,
    uol, uc, nsl, nsc, hn, he⟩ := s
  dsimp only at hok
  subst hok
  constructor <;> intro h
  · simp [transform, hscan, h]
  · simp [transform, hscan, Int.not_lt.mpr h]

/-- C7 witness: an empty write on a fresh instance — no element context is
open afterwards, so the (empty) chunk is flushed and the token buffer
replaced by a fresh one. -/
theorem flush_iff_element_closed_witness :
    ((initState cfgEmpty).hasError = false ∧
      (fun _ : List Nat => ScanOut.ok []) [] = ScanOut.ok [] ∧
      parseCodeBuffer false [] { initState cfgEmpty with chunk := [] } =
        parseCodeBuffer false [] { initState cfgEmpty with chunk := [] }) ∧
    ((parseCodeBuffer false [] { initState cfgEmpty with chunk := [] }).elementStart < 0 →
      transform (fun _ => .ok []) (initState cfgEmpty) [] =
        ({ parseCodeBuffer false [] { initState cfgEmpty with chunk := [] } with
            tokenBuffer := [] },
         .flushed (some
           { buffer := (parseCodeBuffer false []
               { initState cfgEmpty with chunk := [] }).tokenBuffer,
             namespaceList :=
               if (parseCodeBuffer false []
                     { initState cfgEmpty with chunk := [] }).namespacesChanged
               then some (parseCodeBuffer false []
                 { initState cfgEmpty with chunk := [] }).namespaceList
               else none }))) ∧
    (0 ≤ (parseCodeBuffer false [] { initState cfgEmpty with chunk := [] }).elementStart →
      transform (fun _ => .ok []) (initState cfgEmpty) [] =
        (parseCodeBuffer false [] { initState cfgEmpty with chunk := [] },
         .flushed none)) :=
  ⟨⟨by decide, rfl, rfl⟩,
   flush_iff_element_closed (fun _ => .ok []) (initState cfgEmpty) _ [] []
     (by decide) rfl rfl⟩

/-! ### C8 — an unterminated trailing run is still emitted at end of stream -/

/-- C8: at end of stream with a text or attribute-value run still open, the
end-of-write epilogue has saved the bytes seen so far (the previously saved
parts plus the tail of the last input buffer from the run's start offset),
and the final end-offset op-code — emitted by the scanner with offset 0 when
`_flush` destroys it, the current buffer contributing nothing further —
decodes and emits exactly those bytes as a token instead of discarding
them. -/
theorem flush_emits_open_run (s : PState) (k : CodeType)
    (hopen : 0 ≤ s.partStart)
    (hk : k = CodeType.TEXT_END_OFFSET ∨ k = CodeType.VALUE_END_OFFSET) :
    (applyCode (parseCodeBuffer false [] s) k 0).tokenBuffer =
      s.tokenBuffer ++
        [Tok.text (normalizeNewlines
          ((s.partList.getD []).flatten ++ arraySlice s.chunk s.partStart.toNat none))] := by
  rcases hk with hk | hk <;> subst hk <;>
    simp [parseCodeBuffer, hopen, storeSlice, applyCode, getSlice, buildSlice]

/-- C8 witness: a run that started at offset 2 of the final buffer, with one
part already saved from an earlier buffer: both the saved part and the
final buffer's tail are emitted. -/
theorem flush_emits_open_run_witness :
    (0 : Int) ≤ (({ initState cfgEmpty with
        chunk := [97, 98, 99, 100], partStart := 2,
        partList := some [[120, 121]], partListTotalByteLen := 2 } : PState)).partStart ∧
    (applyCode (parseCodeBuffer false []
        { initState cfgEmpty with
            chunk := [97, 98, 99, 100], partStart := 2,
            partList := some [[120, 121]], partListTotalByteLen := 2 })
      CodeType.TEXT_END_OFFSET 0).tokenBuffer =
      ({ initState cfgEmpty with
          chunk := [97, 98, 99, 100], partStart := 2,
          partList := some [[120, 121]], partListTotalByteLen := 2 } : PState).tokenBuffer ++
        [Tok.text (normalizeNewlines
          (((some [[120, 121]] : Option (List (List Nat))).getD []).flatten ++
            arraySlice [97, 98, 99, 100] ((2 : Int)).toNat none))] :=
  ⟨by decide,
   flush_emits_open_run
     { initState cfgEmpty with
         chunk := [97, 98, 99, 100], partStart := 2,
         partList := some [[120, 121]], partListTotalByteLen := 2 }
     CodeType.TEXT_END_OFFSET (by decide) (Or.inl rfl)⟩

/-! ### C2 — the forward-patch pass over the open start tag -/

theorem resolveSlot_prefixBuffer (pfx : Option PfxTok) (nsid : Nat) (es : Int)
    (pos : Nat) (s : PState) :
    (resolveSlot pfx nsid es pos s).prefixBuffer = s.prefixBuffer := by
  unfold resolveSlot
  repeat' split
  all_goals rfl

theorem resolveLoop_prefixBuffer (pfx : Option PfxTok) (nsid : Nat) (es : Int)
    (n : Nat) (s : PState) :
    (resolveLoop pfx nsid es n s).prefixBuffer = s.prefixBuffer := by
  induction n with
  | zero => rfl
  | succ n ih => rw [resolveLoop, resolveSlot_prefixBuffer, ih]

theorem listGetI_some_bounds {l : List Tok} {j : Int} {t : Tok}
    (h : listGetI l j = some t) : 0 ≤ j ∧ j.toNat < l.length := by
  unfold listGetI at h
  split at h
  · refine ⟨by assumption, ?_⟩
    by_contra hlen
    rw [List.get?_eq_none.mpr (Nat.le_of_not_lt hlen)] at h
    exact Option.noConfusion h
  · exact Option.noConfusion h

theorem listGetI_listSetI (l : List Tok) (j i : Int) (t : Tok) :
    listGetI (listSetI l j t) i =
      if i = j ∧ 0 ≤ j ∧ j.toNat < l.length then some t else listGetI l i := by
  unfold listGetI listSetI
  by_cases hj : 0 ≤ j
  · by_cases hi : 0 ≤ i
    · by_cases hij : i = j
      · subst hij
        by_cases hlen : i.toNat < l.length
        · simp [hi, hlen, List.get?_set, List.get?_eq_get hlen]
        · simp [hi, hlen, List.get?_set]
          rw [List.getElem?_eq_none (by simp; omega),
            List.getElem?_eq_none (by omega)]
      · simp [hj, hi, hij, List.get?_set, show ¬j.toNat = i.toNat by omega]
    · simp only [if_neg hi]
      rw [if_neg (show ¬(i = j ∧ 0 ≤ j ∧ j.toNat < l.length) by
        rintro ⟨rfl, h2, h3⟩; exact hi h2)]
  · simp only [if_neg hj]
    rw [if_neg (show ¬(i = j ∧ 0 ≤ j ∧ j.toNat < l.length) from fun hc => hj hc.2.1)]

theorem resolveSlot_tokenBuffer_length (pfx : Option PfxTok) (nsid : Nat)
    (es : Int) (pos : Nat) (s : PState) :
    (resolveSlot pfx nsid es pos s).tokenBuffer.length = s.tokenBuffer.length := by
  unfold resolveSlot listSetI
  repeat' split
  all_goals simp

theorem resolveLoop_tokenBuffer_length (pfx : Option PfxTok) (nsid : Nat)
    (es : Int) (n : Nat) (s : PState) :
    (resolveLoop pfx nsid es n s).tokenBuffer.length = s.tokenBuffer.length := by
  induction n with
  | zero => rfl
  | succ n ih => rw [resolveLoop, resolveSlot_tokenBuffer_length, ih]

theorem memberResolve_isMember (nsid : Nat) (t : Tok) :
    (memberResolve nsid t).isMember = t.isMember := by
  cases t <;> rfl

theorem memberResolve_nsOf (nsid : Nat) (t : Tok) (h : t.isMember = true) :
    (memberResolve nsid t).nsOf = some nsid := by
  cases t <;> simp_all [Tok.isMember, memberResolve, Tok.nsOf]

/-- The pointwise effect of the `Parser.resolve` scan: a slot `i` of the
token buffer is rewritten (member tokens rebound to the namespace) exactly
when its loop index `i - es` lies in `[0, n)` and its recorded provisional
prefix equals the bound prefix; every other slot keeps its token. -/
theorem resolveLoop_get (pfx : Option PfxTok) (nsid : Nat) (es : Int) (n : Nat)
    (s : PState) (i : Int) :
    listGetI (resolveLoop pfx nsid es n s).tokenBuffer i =
      if 0 ≤ i - es ∧ i - es < (n : Int) ∧ s.prefixBuffer (i - es).toNat = pfx then
        (listGetI s.tokenBuffer i).map
          (fun t => if t.isMember then memberResolve nsid t else t)
      else listGetI s.tokenBuffer i := by
  induction n generalizing i with
  | zero =>
    rw [if_neg (by rintro ⟨h1, h2, h3⟩; omega)]
    rfl
  | succ n ih =>
    have hpb := resolveLoop_prefixBuffer pfx nsid es n s
    have hlen := resolveLoop_tokenBuffer_length pfx nsid es n s
    have hn : listGetI (resolveLoop pfx nsid es n s).tokenBuffer ((n : Int) + es) =
        listGetI s.tokenBuffer ((n : Int) + es) := by
      rw [ih, if_neg (by rintro ⟨h1, h2, h3⟩; omega)]
    rw [resolveLoop]
    unfold resolveSlot
    rw [hpb, hn]
    by_cases hc1 : s.prefixBuffer n = pfx
    · rw [if_pos hc1]
      rcases hv : listGetI s.tokenBuffer ((n : Int) + es) with _ | t
      · -- no token at slot n: nothing is written there
        simp only [hv]
        rw [ih]
        by_cases hin : i - es = (n : Int)
        · have hieq : i = (n : Int) + es := by omega
          subst hieq
          rw [if_neg (by rintro ⟨h1, h2, h3⟩; omega),
            if_pos ⟨by omega, by omega, by
              rw [show ((n : Int) + es - es).toNat = n by omega]; exact hc1⟩, hv]
          rfl
        · by_cases hcnd : 0 ≤ i - es ∧ i - es < (n : Int) ∧
              s.prefixBuffer (i - es).toNat = pfx
          · rw [if_pos hcnd, if_pos ⟨hcnd.1, by omega, hcnd.2.2⟩]
          · rw [if_neg hcnd,
              if_neg (by rintro ⟨h1, h2, h3⟩; exact hcnd ⟨h1, by omega, h3⟩)]
      · simp only [hv]
        have hb := @listGetI_some_bounds s.tokenBuffer _ _ hv
        by_cases hm : t.isMember
        · rw [if_pos hm]
          dsimp only
          rw [listGetI_listSetI]
          by_cases hij : i = (n : Int) + es
          · subst hij
            rw [if_pos ⟨rfl, hb.1, by rw [hlen]; exact hb.2⟩,
              if_pos ⟨by omega, by omega, by
                rw [show ((n : Int) + es - es).toNat = n by omega]; exact hc1⟩,
              hv]
            simp [hm]
          · rw [if_neg (fun hc => hij hc.1), ih]
            by_cases hcnd : 0 ≤ i - es ∧ i - es < (n : Int) ∧
                s.prefixBuffer (i - es).toNat = pfx
            · rw [if_pos hcnd, if_pos ⟨hcnd.1, by omega, hcnd.2.2⟩]
            · rw [if_neg hcnd,
                if_neg (by rintro ⟨h1, h2, h3⟩; exact hcnd ⟨h1, by omega, h3⟩)]
        · rw [if_neg hm, ih]
          by_cases hin : i - es = (n : Int)
          · have hieq : i = (n : Int) + es := by omega
            subst hieq
            rw [if_neg (by rintro ⟨h1, h2, h3⟩; omega),
              if_pos ⟨by omega, by omega, by
                rw [show ((n : Int) + es - es).toNat = n by omega]; exact hc1⟩,
              hv]
            simp [hm]
          · by_cases hcnd : 0 ≤ i - es ∧ i - es < (n : Int) ∧
                s.prefixBuffer (i - es).toNat = pfx
            · rw [if_pos hcnd, if_pos ⟨hcnd.1, by omega, hcnd.2.2⟩]
            · rw [if_neg hcnd,
                if_neg (by rintro ⟨h1, h2, h3⟩; exact hcnd ⟨h1, by omega, h3⟩)]
    · rw [if_neg hc1, ih]
      by_cases hcnd : 0 ≤ i - es ∧ i - es < (n : Int) ∧
          s.prefixBuffer (i - es).toNat = pfx
      · rw [if_pos hcnd, if_pos ⟨hcnd.1, by omega, hcnd.2.2⟩]
      · rw [if_neg hcnd, if_neg (by
          rintro ⟨h1, h2, h3⟩
          refine hcnd ⟨h1, ?_, h3⟩
          by_cases hin : i - es = (n : Int)
          · exact absurd (by rw [← h3, hin]; simp) hc1
          · omega)]

theorem patchSlot_frame (es : Int) (s : PState) (pos : Nat) :
    (patchSlot es s pos).unknownOffsetList = s.unknownOffsetList ∧
    (patchSlot es s pos).namespaceBuffer = s.namespaceBuffer ∧
    (patchSlot es s pos).config = s.config ∧
    (patchSlot es s pos).tokenBuffer.length = s.tokenBuffer.length ∧
    (patchSlot es s pos).unknownCount = s.unknownCount ∧
    (patchSlot es s pos).elementStart = s.elementStart := by
  refine ⟨?_, ?_, ?_, ?_, ?_, ?_⟩ <;>
    (simp only [patchSlot, listSetI]; repeat' split) <;> simp

theorem patchFold_frame (es : Int) (ps : List Nat) (s : PState) :
    (ps.foldl (patchSlot es) s).unknownOffsetList = s.unknownOffsetList ∧
    (ps.foldl (patchSlot es) s).namespaceBuffer = s.namespaceBuffer ∧
    (ps.foldl (patchSlot es) s).config = s.config ∧
    (ps.foldl (patchSlot es) s).tokenBuffer.length = s.tokenBuffer.length ∧
    (ps.foldl (patchSlot es) s).unknownCount = s.unknownCount ∧
    (ps.foldl (patchSlot es) s).elementStart = s.elementStart := by
  induction ps generalizing s with
  | nil => exact ⟨rfl, rfl, rfl, rfl, rfl, rfl⟩
  | cons p ps ih =>
    obtain ⟨a1, a2, a3, a4, a5, a6⟩ := patchSlot_frame es s p
    obtain ⟨b1, b2, b3, b4, b5, b6⟩ := ih (patchSlot es s p)
    rw [List.foldl_cons]
    exact ⟨b1.trans a1, b2.trans a2, b3.trans a3, b4.trans a4,
      b5.trans a5, b6.trans a6⟩

/-- A queue entry whose provisional namespace was already cleared (the source
comment: "If an xmlns definition already resolved this token, ns will be
null") is skipped by the `ELEMENT_EMITTED` patch loop. -/
theorem patchSlot_none (es : Int) (s : PState) (pos : Nat)
    (hns : s.namespaceBuffer (s.unknownOffsetList pos) = none) :
    patchSlot es s pos = s := by
  simp only [patchSlot, hns]

/-- The pointwise effect of one `ELEMENT_EMITTED` patch-loop iteration on a
queue entry still carrying a provisional namespace: the entry's own slot is
rebound through the config's current record of that namespace; every other
index is untouched. -/
theorem patchSlot_some_get (es : Int) (s : PState) (pos nsid : Nat) (i : Int)
    (hns : s.namespaceBuffer (s.unknownOffsetList pos) = some nsid) :
    listGetI (patchSlot es s pos).tokenBuffer i =
      if i = (s.unknownOffsetList pos : Int) + es then
        (listGetI s.tokenBuffer i).map
          (memberResolve (s.config.namespaceList.getD nsid default).id)
      else listGetI s.tokenBuffer i := by
  simp only [patchSlot, hns]
  rcases hv : listGetI s.tokenBuffer ((s.unknownOffsetList pos : Int) + es)
      with _ | t
  · dsimp only
    split
    · rename_i hi
      rw [hi, hv]
      rfl
    · rfl
  · have hb := @listGetI_some_bounds s.tokenBuffer _ _ hv
    dsimp only
    rw [listGetI_listSetI]
    by_cases hi : i = (s.unknownOffsetList pos : Int) + es
    · rw [if_pos ⟨hi, hb.1, hb.2⟩, if_pos hi, hi, hv]
      rfl
    · rw [if_neg (fun hc => hi hc.1), if_neg hi]

theorem patchFold_untouched (es : Int) (ps : List Nat) (s : PState) (i : Int)
    (h : ∀ p ∈ ps, s.namespaceBuffer (s.unknownOffsetList p) = none ∨
      i ≠ (s.unknownOffsetList p : Int) + es) :
    listGetI (ps.foldl (patchSlot es) s).tokenBuffer i =
      listGetI s.tokenBuffer i := by
  induction ps generalizing s with
  | nil => rfl
  | cons p ps ih =>
    obtain ⟨f1, f2, f3, f4, f5, f6⟩ := patchSlot_frame es s p
    rw [List.foldl_cons,
      ih (patchSlot es s p) (fun q hq => by
        rw [f1, f2]
        exact h q (List.mem_cons_of_mem p hq))]
    rcases h p (List.mem_cons_self p ps) with hn | hi
    · rw [patchSlot_none es s p hn]
    · rcases hns : s.namespaceBuffer (s.unknownOffsetList p) with _ | nsid
      · rw [patchSlot_none es s p hns]
      · rw [patchSlot_some_get es s p nsid i hns, if_neg hi]

/-- The `ELEMENT_EMITTED` patch loop over queue indices `0 … n-1`: the entry
at `pos0` — still carrying provisional namespace `nsid`, its slot shared
with no other queue entry — ends rebound through the config's current record
of `nsid`. -/
theorem patchRange_patched (es : Int) (n : Nat) (s : PState) (pos0 nsid : Nat)
    (hlt : pos0 < n)
    (hns : s.namespaceBuffer (s.unknownOffsetList pos0) = some nsid)
    (hinj : ∀ p, p < n →
      s.unknownOffsetList p = s.unknownOffsetList pos0 → p = pos0) :
    listGetI ((List.range n).foldl (patchSlot es) s).tokenBuffer
        ((s.unknownOffsetList pos0 : Int) + es) =
      (listGetI s.tokenBuffer ((s.unknownOffsetList pos0 : Int) + es)).map
        (memberResolve (s.config.namespaceList.getD nsid default).id) := by
  induction n with
  | zero => omega
  | succ n ih =>
    rw [List.range_succ, List.foldl_append, List.foldl_cons, List.foldl_nil]
    obtain ⟨f1, f2, f3, f4, f5, f6⟩ :=
      patchFold_frame es (List.range n) s
    by_cases hp0 : pos0 = n
    · have hunt := patchFold_untouched es (List.range n) s
        ((s.unknownOffsetList pos0 : Int) + es) (fun p hp => by
          right
          intro hc
          have hpmem := List.mem_range.mp hp
          have hpu : s.unknownOffsetList p = s.unknownOffsetList pos0 := by omega
          have hpe := hinj p (by omega) hpu
          omega)
      rw [patchSlot_some_get es _ n nsid _ (by rw [f2, f1, ← hp0]; exact hns),
        f1, if_pos (by rw [hp0]), hunt, f3, hp0]
    · have hne : s.unknownOffsetList n ≠ s.unknownOffsetList pos0 := fun hc =>
        hp0 (hinj n (Nat.lt_succ_self n) hc).symm
      have hrec := ih (by omega) (fun p hp => hinj p (by omega))
      rcases hns2 : s.namespaceBuffer (s.unknownOffsetList n) with _ | nsid2
      · rw [patchSlot_none es _ n (by rw [f2, f1]; exact hns2), hrec]
      · rw [patchSlot_some_get es _ n nsid2 _ (by rw [f2, f1]; exact hns2),
          f1, if_neg (by intro hc; apply hne; omega), hrec]

theorem listGetI_append_lt (l : List Tok) (x : Tok) (i : Int)
    (h : i < (l.length : Int)) :
    listGetI (l ++ [x]) i = listGetI l i := by
  unfold listGetI
  split
  · rename_i hi
    rw [List.get?_append (by omega)]
  · rfl

/-- The `ELEMENT_EMITTED` branch patches a queued unknown slot that still
carries a provisional namespace: in the emitted element context its token is
rebound through the config's current record of that namespace. -/
theorem emit_patch_patched (s2 : PState) (pos0 nsid : Nat)
    (hlt : pos0 < s2.unknownCount)
    (hns : s2.namespaceBuffer (s2.unknownOffsetList pos0) = some nsid)
    (hinj : ∀ p, p < s2.unknownCount →
      s2.unknownOffsetList p = s2.unknownOffsetList pos0 → p = pos0)
    (hb : (s2.unknownOffsetList pos0 : Int) + s2.elementStart <
      (s2.tokenBuffer.length : Int)) :
    listGetI (applyCode s2 CodeType.ELEMENT_EMITTED 0).tokenBuffer
        ((s2.unknownOffsetList pos0 : Int) + s2.elementStart) =
      (listGetI s2.tokenBuffer
          ((s2.unknownOffsetList pos0 : Int) + s2.elementStart)).map
        (memberResolve (s2.config.namespaceList.getD nsid default).id) := by
  have huc : s2.unknownCount ≠ 0 := by omega
  obtain ⟨f1, f2, f3, f4, f5, f6⟩ :=
    patchFold_frame s2.elementStart (List.range s2.unknownCount) s2
  simp only [applyCode, emitElement, if_pos huc]
  rw [listGetI_append_lt _ _ _ (by rw [patchUnknown, f4]; exact hb),
    patchUnknown]
  exact patchRange_patched s2.elementStart s2.unknownCount s2 pos0 nsid
    hlt hns hinj

/-- The `ELEMENT_EMITTED` branch leaves every other slot of the emitted
element context untouched: slots whose provisional namespace was already
cleared by an xmlns resolution, and every index outside the queued-slot
positions, keep their token. -/
theorem emit_patch_untouched (s2 : PState) (i : Int)
    (h : ∀ p, p < s2.unknownCount →
      s2.namespaceBuffer (s2.unknownOffsetList p) = none ∨
        i ≠ (s2.unknownOffsetList p : Int) + s2.elementStart)
    (hi : i < (s2.tokenBuffer.length : Int)) :
    listGetI (applyCode s2 CodeType.ELEMENT_EMITTED 0).tokenBuffer i =
      listGetI s2.tokenBuffer i := by
  by_cases huc : s2.unknownCount ≠ 0
  · obtain ⟨f1, f2, f3, f4, f5, f6⟩ :=
      patchFold_frame s2.elementStart (List.range s2.unknownCount) s2
    simp only [applyCode, emitElement, if_pos huc]
    rw [listGetI_append_lt _ _ _ (by rw [patchUnknown, f4]; exact hi),
      patchUnknown]
    exact patchFold_untouched s2.elementStart (List.range s2.unknownCount) s2 i
      (fun p hp => h p (List.mem_range.mp hp))
  · simp only [applyCode, emitElement, if_neg huc]
    rw [listGetI_append_lt _ _ _ hi]

/-- C2: when a namespace binding for prefix P is processed for the current
start tag, the forward-patch pass (`Parser.resolve`) rewrites exactly the
slots of the current element context whose recorded provisional prefix
equals P — member-token slots are rebound to the newly bound namespace —
and leaves every other slot untouched: slots recorded for other prefixes
(already resolved or not) keep their token unchanged, as does everything
outside the context's index range.  Names with prefix P occurring after the
binding take the other road of the source: their slots record the
namespace announced by `PREFIX_ID` in `namespaceBuffer`, and the
`ELEMENT_EMITTED` patch loop rebinds exactly the queued slots still
carrying a provisional namespace — leaving already-resolved ones untouched
— through the config's current record of it; a slot patched at binding
time and a slot recorded after the binding and patched at emit time end
with one and the same namespace. -/
theorem resolve_forward_patches_exactly_matching_slots
    (s : PState) (es tn : Int) (pfx : Option PfxTok) (idNs : Nat) :
    (∀ pos : Nat, s.prefixBuffer pos ≠ pfx →
      listGetI (Parser.resolve s es tn pfx idNs).tokenBuffer ((pos : Int) + es) =
        listGetI s.tokenBuffer ((pos : Int) + es)) ∧
    (∀ i : Int, i < es ∨ tn < i →
      listGetI (Parser.resolve s es tn pfx idNs).tokenBuffer i =
        listGetI s.tokenBuffer i) ∧
    (∀ pos : Nat, (pos : Int) + es ≤ tn → s.prefixBuffer pos = pfx →
      listGetI (Parser.resolve s es tn pfx idNs).tokenBuffer ((pos : Int) + es) =
        (listGetI s.tokenBuffer ((pos : Int) + es)).map
          (fun t => if t.isMember then
            memberResolve (s.config.namespaceList.getD idNs default).id t else t)) ∧
    (∀ (pos1 pos2 : Nat) (t1 t2 : Tok),
      (pos1 : Int) + es ≤ tn → (pos2 : Int) + es ≤ tn →
      s.prefixBuffer pos1 = pfx → s.prefixBuffer pos2 = pfx →
      listGetI (Parser.resolve s es tn pfx idNs).tokenBuffer ((pos1 : Int) + es) =
        some t1 →
      listGetI (Parser.resolve s es tn pfx idNs).tokenBuffer ((pos2 : Int) + es) =
        some t2 →
      t1.isMember = true → t2.isMember = true →
      t1.nsOf = some (s.config.namespaceList.getD idNs default).id ∧
        t1.nsOf = t2.nsOf) ∧
    (∀ (s2 : PState) (pos0 nsid : Nat),
      pos0 < s2.unknownCount →
      s2.namespaceBuffer (s2.unknownOffsetList pos0) = some nsid →
      (∀ p, p < s2.unknownCount →
        s2.unknownOffsetList p = s2.unknownOffsetList pos0 → p = pos0) →
      (s2.unknownOffsetList pos0 : Int) + s2.elementStart <
        (s2.tokenBuffer.length : Int) →
      listGetI (applyCode s2 CodeType.ELEMENT_EMITTED 0).tokenBuffer
          ((s2.unknownOffsetList pos0 : Int) + s2.elementStart) =
        (listGetI s2.tokenBuffer
            ((s2.unknownOffsetList pos0 : Int) + s2.elementStart)).map
          (memberResolve (s2.config.namespaceList.getD nsid default).id)) ∧
    (∀ (s2 : PState) (i : Int),
      (∀ p, p < s2.unknownCount →
        s2.namespaceBuffer (s2.unknownOffsetList p) = none ∨
          i ≠ (s2.unknownOffsetList p : Int) + s2.elementStart) →
      i < (s2.tokenBuffer.length : Int) →
      listGetI (applyCode s2 CodeType.ELEMENT_EMITTED 0).tokenBuffer i =
        listGetI s2.tokenBuffer i) ∧
    (∀ (s2 : PState) (pos pos0 : Nat) (t1 t2 : Tok),
      (pos : Int) + es ≤ tn → s.prefixBuffer pos = pfx →
      listGetI (Parser.resolve s es tn pfx idNs).tokenBuffer ((pos : Int) + es) =
        some t1 →
      t1.isMember = true →
      pos0 < s2.unknownCount →
      s2.namespaceBuffer (s2.unknownOffsetList pos0) = some idNs →
      (∀ p, p < s2.unknownCount →
        s2.unknownOffsetList p = s2.unknownOffsetList pos0 → p = pos0) →
      (s2.unknownOffsetList pos0 : Int) + s2.elementStart <
        (s2.tokenBuffer.length : Int) →
      listGetI (applyCode s2 CodeType.ELEMENT_EMITTED 0).tokenBuffer
          ((s2.unknownOffsetList pos0 : Int) + s2.elementStart) = some t2 →
      t2.isMember = true →
      (s2.config.namespaceList.getD idNs default).id =
        (s.config.namespaceList.getD idNs default).id →
      t1.nsOf = t2.nsOf) := by
  have hres : ∀ i : Int,
      listGetI (Parser.resolve s es tn pfx idNs).tokenBuffer i =
        if 0 ≤ i - es ∧ i - es < (((tn - es + 1).toNat : Nat) : Int) ∧
            s.prefixBuffer (i - es).toNat = pfx then
          (listGetI s.tokenBuffer i).map
            (fun t => if t.isMember then
              memberResolve (s.config.namespaceList.getD idNs default).id t else t)
        else listGetI s.tokenBuffer i := by
    intro i
    exact resolveLoop_get pfx (s.config.namespaceList.getD idNs default).id es
      (tn - es + 1).toNat _ i
  have key : ∀ (pos : Nat) (t : Tok), s.prefixBuffer pos = pfx →
      (pos : Int) + es ≤ tn →
      listGetI (Parser.resolve s es tn pfx idNs).tokenBuffer ((pos : Int) + es) =
        some t →
      t.isMember = true →
      t.nsOf = some (s.config.namespaceList.getD idNs default).id := by
    intro pos t hp hle hg hm
    rw [hres, if_pos ⟨by omega, by omega, by
      rw [show ((pos : Int) + es - es).toNat = pos by omega]; exact hp⟩] at hg
    rcases hu : listGetI s.tokenBuffer ((pos : Int) + es) with _ | u
    · rw [hu] at hg; simp at hg
    · rw [hu] at hg
      by_cases hum : u.isMember
      · obtain rfl : memberResolve (s.config.namespaceList.getD idNs default).id u = t := by
          simpa [hum] using hg
        exact memberResolve_nsOf _ _ hum
      · obtain rfl : u = t := by simpa [hum] using hg
        exact absurd hm hum
  refine ⟨fun pos hne => ?_, fun i hout => ?_, fun pos hle hpe => ?_,
    fun pos1 pos2 t1 t2 h1 h2 hp1 hp2 hg1 hg2 hm1 hm2 => ?_,
    fun s2 pos0 nsid hlt hns hinj hb => ?_,
    fun s2 i hsk hbound => ?_,
    fun s2 pos pos0 t1 t2 hle hpe hg1 hm1 hlt hns hinj hb hg2 hm2 hcfg => ?_⟩
  · rw [hres, if_neg]
    rintro ⟨hc1, hc2, hc3⟩
    rw [show ((pos : Int) + es - es).toNat = pos by omega] at hc3
    exact hne hc3
  · rw [hres, if_neg]
    rintro ⟨hc1, hc2, hc3⟩
    omega
  · rw [hres, if_pos ⟨by omega, by omega, by
      rw [show ((pos : Int) + es - es).toNat = pos by omega]; exact hpe⟩]
  · exact ⟨key pos1 t1 hp1 h1 hg1 hm1,
      (key pos1 t1 hp1 h1 hg1 hm1).trans (key pos2 t2 hp2 h2 hg2 hm2).symm⟩
  · exact emit_patch_patched s2 pos0 nsid hlt hns hinj hb
  · exact emit_patch_untouched s2 i hsk hbound
  · have ht1 := key pos t1 hpe hle hg1 hm1
    rw [emit_patch_patched s2 pos0 idNs hlt hns hinj hb] at hg2
    rcases hu : listGetI s2.tokenBuffer
        ((s2.unknownOffsetList pos0 : Int) + s2.elementStart) with _ | u
    · rw [hu] at hg2
      exact absurd hg2 (by simp)
    · rw [hu] at hg2
      have ht2 : memberResolve (s2.config.namespaceList.getD idNs default).id u
          = t2 := by
        simpa using hg2
      have hum : u.isMember = true := by
        rw [← memberResolve_isMember
          (s2.config.namespaceList.getD idNs default).id u, ht2]
        exact hm2
      rw [ht1, ← ht2, memberResolve_nsOf _ u hum, hcfg]

/-- A prefix token `a` bound in the concrete C2 scenario. -/
def pfxA : PfxTok := ⟨1, [97]⟩

/-- Another prefix token `b`, left untouched in the concrete C2 scenario. -/
def pfxB : PfxTok := ⟨2, [98]⟩

/-- A config with a registered namespace (id 7) at registry index 1. -/
def cfgC2 : Config := ⟨[], [], [], [], [⟨0, [], none⟩, ⟨7, [117], none⟩], 7⟩

/-- A state mid-start-tag: open element (prefix `a`), an attribute with
prefix `a`, a value, and an attribute with prefix `b` already resolved. -/
def sC2 : PState :=
  { initState cfgC2 with
      tokenBuffer := [Tok.elemOpen [120] none 3, Tok.attrName [121] none 4,
        Tok.text [118], Tok.attrName [122] (some 9) 5],
      elementStart := 0,
      prefixBuffer := fun i =>
        if i = 0 then some pfxA else if i = 1 then some pfxA
        else if i = 3 then some pfxB else none }

/-- A state at the end of a start tag whose names with the bound prefix
came after the binding: the unknown open element (queue entry 0, slot 0,
provisional namespace already cleared) and an unknown attribute (queue
entry 1, slot 3) recorded with the namespace announced by `PREFIX_ID` —
registry index 1, namespace id 7. -/
def sC2e : PState :=
  { initState cfgC2 with
      tokenBuffer := [Tok.elemOpen [120] none 3, Tok.attrName [121] none 4,
        Tok.text [118], Tok.attrName [122] none 5],
      elementStart := 0,
      unknownCount := 2,
      unknownOffsetList := fun i => if i = 1 then 3 else 0,
      namespaceBuffer := fun i => if i = 3 then some 1 else none }

/-- C2 witness: slot 1 (attribute recorded with prefix `a` before the
binding) is rebound by the forward-patch pass for prefix `a` to namespace
7 and slot 3 (prefix `b`) is untouched; in the post-binding state, the
`ELEMENT_EMITTED` patch loop rebinds queued slot 3 (recorded with the
bound namespace) through registry entry 1 and leaves slot 1 untouched;
and the attribute patched at binding time carries the same namespace as
the one patched at emit time. -/
theorem resolve_forward_patch_witness :
    ((1 : Int) + 0 ≤ 3 ∧ sC2.prefixBuffer 1 = some pfxA ∧
      sC2.prefixBuffer 3 ≠ some pfxA ∧
      1 < sC2e.unknownCount ∧
      sC2e.namespaceBuffer (sC2e.unknownOffsetList 1) = some 1 ∧
      (sC2e.unknownOffsetList 1 : Int) + sC2e.elementStart <
        (sC2e.tokenBuffer.length : Int)) ∧
    (listGetI (Parser.resolve sC2 0 3 (some pfxA) 1).tokenBuffer ((1 : Int) + 0) =
      (listGetI sC2.tokenBuffer ((1 : Int) + 0)).map
        (fun t => if t.isMember then
          memberResolve (sC2.config.namespaceList.getD 1 default).id t else t)) ∧
    (listGetI (Parser.resolve sC2 0 3 (some pfxA) 1).tokenBuffer ((3 : Int) + 0) =
      listGetI sC2.tokenBuffer ((3 : Int) + 0)) ∧
    (listGetI (applyCode sC2e CodeType.ELEMENT_EMITTED 0).tokenBuffer
        ((sC2e.unknownOffsetList 1 : Int) + sC2e.elementStart) =
      (listGetI sC2e.tokenBuffer
          ((sC2e.unknownOffsetList 1 : Int) + sC2e.elementStart)).map
        (memberResolve (sC2e.config.namespaceList.getD 1 default).id)) ∧
    (listGetI (applyCode sC2e CodeType.ELEMENT_EMITTED 0).tokenBuffer 1 =
      listGetI sC2e.tokenBuffer 1) ∧
    (Tok.attrName [121] (some 7) 4).nsOf = (Tok.attrName [122] (some 7) 5).nsOf :=
  ⟨⟨by decide, by decide, by decide, by decide, by decide, by decide⟩,
   (resolve_forward_patches_exactly_matching_slots sC2 0 3 (some pfxA) 1).2.2.1 1
     (by decide) (by decide),
   (resolve_forward_patches_exactly_matching_slots sC2 0 3 (some pfxA) 1).1 3
     (by decide),
   (resolve_forward_patches_exactly_matching_slots sC2 0 3 (some pfxA)
      1).2.2.2.2.1 sC2e 1 1 (by decide) (by decide)
     (by
       intro p hp hup
       have h2 : p < 2 := hp
       interval_cases p
       · exact absurd hup (by decide)
       · rfl)
     (by decide),
   (resolve_forward_patches_exactly_matching_slots sC2 0 3 (some pfxA)
      1).2.2.2.2.2.1 sC2e 1
     (by
       intro p hp
       have h2 : p < 2 := hp
       interval_cases p
       · exact Or.inl (by decide)
       · exact Or.inr (by decide))
     (by decide),
   (resolve_forward_patches_exactly_matching_slots sC2 0 3 (some pfxA)
      1).2.2.2.2.2.2 sC2e 1 1
     (Tok.attrName [121] (some 7) 4) (Tok.attrName [122] (some 7) 5)
     (by decide) (by decide) (by decide) (by decide) (by decide) (by decide)
     (by
       intro p hp hup
       have h2 : p < 2 := hp
       interval_cases p
       · exact absurd hup (by decide)
       · rfl)
     (by decide) (by decide) (by decide) (by decide)⟩

/-! ### C1 — splitting the input at any byte offset preserves the tokens -/

end Cxml
